import Mathlib

/-!
Shallow embedding of `src/scripts/sra_fetch.py`.

The script downloads sequencing data by accession: it validates and
deduplicates accession tokens, then for each accession checks whether the
output fastq already exists (`is_done`), otherwise runs `prefetch` and
`fasterq-dump` via `run_command`, optionally removes temporary directories,
and appends one record to a tab-separated log file.

Modelling choices:
* The filesystem is a finite map from paths to file sizes plus a set of
  directories (`FS`).  `os.path.exists`, `os.path.getsize`, `os.makedirs`
  and `shutil.rmtree` become pure operations on `FS`.
* Subprocess execution is an oracle `world : List String → CmdResult`
  giving the exit status and captured output of each command line; the
  commands actually executed are accumulated in `RunState.executed`
  (a dry run executes nothing).
* Python exceptions become `Except PyExn`; `RuntimeError` and
  `FileNotFoundError` are the two classes the script can raise.
* The log file becomes a list of `LogRecord`s; the wall-clock timestamp is
  abstracted out of the record (it is a fresh `datetime.now()` string) and
  the textual line format is modelled separately by `append_log_line`.
* The `ThreadPoolExecutor` fan-out in `main` is modelled by the sequential
  fold `run_all`; the claims below about the scheduler concern counts of
  outcomes and log records, which are independent of completion order.
-/

namespace SraFetch

/-- A path-addressable store: regular files with their byte sizes, plus
directories.  This models the slice of the filesystem the script touches. -/
structure FS where
  files : List (String × Nat)
  dirs : List String
deriving DecidableEq

/-- Size lookup backing `os.path.getsize`: the size of the regular file
at `p`, if one exists. -/
def FS.fileSize (fs : FS) (p : String) : Option Nat :=
  (fs.files.find? (fun f => f.1 == p)).map (fun f => f.2)

/-- Models `os.path.exists p`: true if `p` is a regular file or a
directory. -/
def FS.existsPath (fs : FS) (p : String) : Bool :=
  fs.files.any (fun f => f.1 == p) || fs.dirs.any (fun d => d == p)

/-- Models `os.path.getsize p` as used by the script (always guarded by
an existence check on a regular file); absent paths and directories
give 0. -/
def FS.getsize (fs : FS) (p : String) : Nat :=
  (fs.fileSize p).getD 0

/-- Models `os.makedirs(p, exist_ok=True)`. -/
def FS.makedirs (fs : FS) (p : String) : FS :=
  if fs.dirs.any (fun d => d == p) then fs else { fs with dirs := p :: fs.dirs }

/-- Holds when `q` lies in the subtree rooted at `root` (used by
`shutil.rmtree`). -/
def pathIsUnder (root q : String) : Bool :=
  q == root || (root ++ "/").isPrefixOf q

/-- Models `shutil.rmtree p`: remove `p` and everything below it. -/
def FS.rmtree (fs : FS) (p : String) : FS :=
  { files := fs.files.filter (fun f => !(pathIsUnder p f.1)),
    dirs := fs.dirs.filter (fun d => !(pathIsUnder p d)) }

/-- Exit status and captured output of one subprocess invocation
(`subprocess.run(cmd, text=True, capture_output=True)`). -/
structure CmdResult where
  returncode : Int
  stdout : String
  stderr : String
deriving DecidableEq

/-- The two exception classes the script raises: `RuntimeError` from
`run_command` and `FileNotFoundError` from `fasterq_dump_one`. -/
inductive PyExn where
  | runtimeError (msg : String)
  | fileNotFoundError (msg : String)
deriving DecidableEq

/-- Python `str(e)`: the message of the exception. -/
def PyExn.str : PyExn → String
  | .runtimeError m => m
  | .fileNotFoundError m => m

/-- One record of the audit log file (`append_log` writes
a tab-separated line); the wall-clock timestamp is abstracted. -/
structure LogRecord where
  acc : String
  status : String
  msg : String
deriving DecidableEq

/-- The mutable world one run of the script threads through: the
filesystem, the list of subprocess command lines actually executed
(in order), and the log records appended so far. -/
structure RunState where
  fs : FS
  executed : List (List String)
  log : List LogRecord
deriving DecidableEq

/-- Models `str(e).replace` of a newline by a space — a single-character
replacement, expressed as a character map. -/
def flattenNewlines (s : String) : String :=
  String.mk (s.data.map (fun c => if c = '\n' then ' ' else c))

/-- The line built by `append_log`: timestamp, accession, status and
message joined by tabs, terminated by a newline. -/
def append_log_line (ts acc status msg : String) : String :=
  ts ++ "\t" ++ acc ++ "\t" ++ status ++ "\t" ++ msg ++ "\n"

/-- Models `append_log(log_path, acc, status, msg)`: appends exactly one record
to the (single) log file.  The lock, the parent-directory creation and the
timestamp are invisible at this level of the model. -/
def append_log (acc status msg : String) (st : RunState) : RunState :=
  { st with log := st.log ++ [⟨acc, status, msg⟩] }

/-- Models the joining of the command words by single spaces. -/
def printable (cmd : List String) : String :=
  String.intercalate " " cmd

/-- Models `run_command(cmd, dry_run)`: in dry mode, describe the command and
return `None` without executing; in real mode run it, and raise
`RuntimeError` carrying the captured stderr on a non-zero exit status. -/
def run_command (world : List String → CmdResult) (cmd : List String)
    (dry_run : Bool) (st : RunState) : Except PyExn (Option CmdResult) × RunState :=
  if dry_run then
    (Except.ok none, st)
  else
    let result := world cmd
    let st1 : RunState := { st with executed := st.executed ++ [cmd] }
    if result.returncode != 0 then
      (Except.error (PyExn.runtimeError
        ("Command failed: " ++ printable cmd ++ "\n" ++ result.stderr)), st1)
    else
      (Except.ok (some result), st1)

/-- The path out_dir/acc. -/
def out_dir_acc (out_dir acc : String) : String := out_dir ++ "/" ++ acc

/-- The path temp_dir/acc. -/
def tmp_dir_acc (temp_dir acc : String) : String := temp_dir ++ "/" ++ acc

/-- The path sra_dir/acc. -/
def sra_dir_acc (sra_dir acc : String) : String := sra_dir ++ "/" ++ acc

/-- The path sra_dir/acc/acc.sra of the cached archive object. -/
def sra_path (sra_dir acc : String) : String :=
  sra_dir ++ "/" ++ acc ++ "/" ++ acc ++ ".sra"

/-- The path out_dir/acc/acc.fastq — the single-end output file. -/
def se_path (out_dir acc : String) : String :=
  out_dir_acc out_dir acc ++ "/" ++ acc ++ ".fastq"

/-- The path out_dir/acc/acc_1.fastq — the first paired-end output
file. -/
def pe1_path (out_dir acc : String) : String :=
  out_dir_acc out_dir acc ++ "/" ++ acc ++ "_1.fastq"

/-- The configuration held by the `SraDownloader` class. -/
structure SraDownloader where
  out_dir : String
  temp_dir : String
  sra_dir : String
  threads : Nat
  dry_run : Bool
deriving DecidableEq

/-- Models `SraDownloader.prefetch_one`: run
`prefetch <acc> --output-directory <sra_dir>`. -/
def SraDownloader.prefetch_one (d : SraDownloader)
    (world : List String → CmdResult) (acc : String) (st : RunState) :
    Except PyExn (Option CmdResult) × RunState :=
  run_command world ["prefetch", acc, "--output-directory", d.sra_dir] d.dry_run st

/-- Models `SraDownloader.fasterq_dump_one`: create the per-accession output and
temp directories, require (real runs only) the cached `.sra` archive to
exist, then run `fasterq-dump ... --split-files`. -/
def SraDownloader.fasterq_dump_one (d : SraDownloader)
    (world : List String → CmdResult) (acc : String) (st : RunState) :
    Except PyExn (Option CmdResult) × RunState :=
  let outAcc := out_dir_acc d.out_dir acc
  let tmpAcc := tmp_dir_acc d.temp_dir acc
  let sp := sra_path d.sra_dir acc
  let st1 : RunState := { st with fs := (st.fs.makedirs outAcc).makedirs tmpAcc }
  if !d.dry_run && !(st1.fs.existsPath sp) then
    (Except.error (PyExn.fileNotFoundError ("Missing SRA file: " ++ sp)), st1)
  else
    run_command world
      ["fasterq-dump", sp, "--outdir", outAcc, "--temp", tmpAcc,
       "--threads", toString d.threads, "--split-files"] d.dry_run st1

/-- Models `SraDownloader.is_done`: a non-empty `<out_dir>/<acc>/<acc>.fastq` or a
non-empty `<out_dir>/<acc>/<acc>_1.fastq` marks the accession as done. -/
def SraDownloader.is_done (d : SraDownloader) (fs : FS) (acc : String) : Bool :=
  let se := se_path d.out_dir acc
  let pe1 := pe1_path d.out_dir acc
  if fs.existsPath se && decide (0 < fs.getsize se) then true
  else if fs.existsPath pe1 && decide (0 < fs.getsize pe1) then true
  else false

/-- Models `safe_rmtree(path, dry_run)`: no-op when the path is absent; in dry
mode report only; otherwise delete the subtree. -/
def safe_rmtree (path : String) (dry_run : Bool) (st : RunState) : RunState :=
  if !(st.fs.existsPath path) then st
  else if dry_run then st
  else { st with fs := st.fs.rmtree path }

/-- The code point ranges of the Unicode decimal digits (general
category Nd) as known to the CPython runtime (Python 3.11, Unicode 14):
with a str pattern, Python's regex digit class matches exactly these
characters, not only the ASCII digits. -/
def ndRanges : List (Nat × Nat) :=
  [(48, 57), (1632, 1641), (1776, 1785), (1984, 1993),
   (2406, 2415), (2534, 2543), (2662, 2671), (2790, 2799),
   (2918, 2927), (3046, 3055), (3174, 3183), (3302, 3311),
   (3430, 3439), (3558, 3567), (3664, 3673), (3792, 3801),
   (3872, 3881), (4160, 4169), (4240, 4249), (6112, 6121),
   (6160, 6169), (6470, 6479), (6608, 6617), (6784, 6793),
   (6800, 6809), (6992, 7001), (7088, 7097), (7232, 7241),
   (7248, 7257), (42528, 42537), (43216, 43225), (43264, 43273),
   (43472, 43481), (43504, 43513), (43600, 43609), (44016, 44025),
   (65296, 65305), (66720, 66729), (68912, 68921), (69734, 69743),
   (69872, 69881), (69942, 69951), (70096, 70105), (70384, 70393),
   (70736, 70745), (70864, 70873), (71248, 71257), (71360, 71369),
   (71472, 71481), (71904, 71913), (72016, 72025), (72784, 72793),
   (73040, 73049), (73120, 73129), (92768, 92777), (92864, 92873),
   (93008, 93017), (120782, 120831), (123200, 123209), (123632, 123641),
   (125264, 125273), (130032, 130041)]

/-- Membership of a code point in the Unicode decimal-digit ranges. -/
def isPyDigitNat (v : Nat) : Bool :=
  ndRanges.any (fun r => decide (r.1 ≤ v ∧ v ≤ r.2))

/-- The digit class of a Python str-pattern regex: any Unicode decimal
digit (general category Nd). -/
def isPyDigit (c : Char) : Bool :=
  isPyDigitNat c.val.toNat

/-- Unrolling of the source's regular expression — SRR, ERR or DRR
followed by one or more characters of the Python digit class — matched
in full against the character list. -/
def matches_acc_regex : List Char → Bool
  | a :: b :: c :: rest =>
      ((a == 'S' || a == 'E' || a == 'D') && (b == 'R') && (c == 'R'))
        && !rest.isEmpty && rest.all (fun ch => isPyDigit ch)
  | _ => false

/-- Models `validate_accessions(acc)`. -/
def validate_accessions (acc : String) : Bool :=
  matches_acc_regex acc.data

/-- The code points Python's `str.strip()` removes: the characters whose
`isspace()` is true in the CPython runtime. -/
def pyWhitespace : List Nat :=
  [9, 10, 11, 12, 13, 28, 29, 30, 31, 32, 133, 160, 5760,
   8192, 8193, 8194, 8195, 8196, 8197, 8198, 8199, 8200, 8201, 8202,
   8232, 8233, 8239, 8287, 12288]

/-- Python whitespace test for one character. -/
def pyIsSpace (c : Char) : Bool :=
  pyWhitespace.contains c.val.toNat

/-- Models `acc.strip()`: remove leading and trailing Python whitespace
characters. -/
def pyStrip (s : String) : String :=
  String.mk (((s.data.dropWhile pyIsSpace).reverse.dropWhile pyIsSpace).reverse)

/-- Models `acc.upper()` character-wise with the ASCII case mapping; the
non-ASCII and multi-character case mappings of `str.upper()` are not
represented (they do not affect the accession alphabet of upper-case
ASCII letters and decimal digits). -/
def pyUpper (s : String) : String :=
  String.mk (s.data.map Char.toUpper)

/-- The stripping and upper-casing performed by `main` before
validation (`acc.strip().upper()`). -/
def normalize_token (s : String) : String :=
  pyUpper (pyStrip s)

/-- Modelled from the spec: the accession grammar
`^(SRR|ERR|DRR)[0-9]+$` — one of the three archive-source prefixes
immediately followed by one or more digits `0`-`9`, with no other
characters. -/
def accessionGrammar (s : String) : Prop :=
  ∃ ds : List Char,
    (s.data = 'S' :: 'R' :: 'R' :: ds ∨ s.data = 'E' :: 'R' :: 'R' :: ds ∨
      s.data = 'D' :: 'R' :: 'R' :: ds)
    ∧ ds ≠ [] ∧ ∀ c ∈ ds, c.isDigit = true

/-- The accept set of the source's regular expression read with Python's
semantics of the digit class: a prefix SRR, ERR or DRR followed by one
or more Unicode decimal digits. -/
def accessionGrammarUnicode (s : String) : Prop :=
  ∃ ds : List Char,
    (s.data = 'S' :: 'R' :: 'R' :: ds ∨ s.data = 'E' :: 'R' :: 'R' :: ds ∨
      s.data = 'D' :: 'R' :: 'R' :: ds)
    ∧ ds ≠ [] ∧ ∀ c ∈ ds, isPyDigit c = true

/-- The loop body of `dedup_preserve_order`: `seen` holds the items
already emitted. -/
def dedupGo (seen : List String) : List String → List String
  | [] => []
  | item :: rest =>
      if item ∈ seen then dedupGo seen rest
      else item :: dedupGo (item :: seen) rest

/-- Models `dedup_preserve_order(items)`. -/
def dedup_preserve_order (items : List String) : List String :=
  dedupGo [] items

/-- Modelled from the spec: the subsequence of the input keeping the
first occurrence of every element — each element is emitted at its first
occurrence and all later occurrences are filtered out. -/
def keepFirst : List String → List String
  | [] => []
  | a :: l => a :: keepFirst (l.filter (fun b => decide (b ≠ a)))
termination_by l => l.length
decreasing_by
  simp only [List.length_cons]
  exact Nat.lt_succ_of_le (List.length_filter_le _ _)

/-- Models `process_one_accession(acc, ...)`: the per-item pipeline.  The skip
check and its log write happen before the `try` block; `prefetch`,
`fasterq-dump`, the two optional cleanups and the success log write are
inside it, and any exception there is converted into a failure outcome
plus a `FAIL` log record.  (In this concrete model only the two external
steps can raise.) -/
def process_one_accession (world : List String → CmdResult) (acc : String)
    (out_dir tmp_dir sra_dir : String) (threads : Nat)
    (dry_run delete_tmp_after delete_sra_after : Bool) (st : RunState) :
    (String × Bool × String) × RunState :=
  let downloader : SraDownloader := ⟨out_dir, tmp_dir, sra_dir, threads, dry_run⟩
  if downloader.is_done st.fs acc then
    ((acc, true, "SKIP (fastq already downloaded)"),
      append_log acc "SKIP" "fastq already downloaded" st)
  else
    match downloader.prefetch_one world acc st with
    | (Except.error e, st1) =>
        ((acc, false, e.str), append_log acc "FAIL" (flattenNewlines e.str) st1)
    | (Except.ok _, st1) =>
      match downloader.fasterq_dump_one world acc st1 with
      | (Except.error e, st2) =>
          ((acc, false, e.str), append_log acc "FAIL" (flattenNewlines e.str) st2)
      | (Except.ok _, st2) =>
        let st3 := if delete_tmp_after then
            safe_rmtree (tmp_dir_acc tmp_dir acc) dry_run st2 else st2
        let st4 := if delete_sra_after then
            safe_rmtree (sra_dir_acc sra_dir acc) dry_run st3 else st3
        ((acc, true, "OK"), append_log acc "OK" "prefetch + fasterq-dump completed" st4)

/-- The scheduler of `main`: submit `process_one_accession` for every
accession and collect one outcome each.  Sequentialized model of the
`ThreadPoolExecutor` fan-out; the counting claims proved below do not
depend on completion order. -/
def run_all (world : List String → CmdResult)
    (out_dir tmp_dir sra_dir : String) (threads : Nat)
    (dry_run delete_tmp_after delete_sra_after : Bool) :
    List String → RunState → List (String × Bool × String) × RunState
  | [], st => ([], st)
  | acc :: rest, st =>
      let p := process_one_accession world acc out_dir tmp_dir sra_dir threads
        dry_run delete_tmp_after delete_sra_after st
      let q := run_all world out_dir tmp_dir sra_dir threads
        dry_run delete_tmp_after delete_sra_after rest p.2
      (p.1 :: q.1, q.2)

/-- The `ok` counter of `main`: one increment per outcome whose success
flag is true. -/
def okCount (outs : List (String × Bool × String)) : Nat :=
  outs.countP (fun o => o.2.1)

/-- An outcome produced by the skip path. -/
def isSkipOutcome (o : String × Bool × String) : Bool :=
  o.2.1 && (o.2.2 == "SKIP (fastq already downloaded)")

/-- An outcome produced by the success path. -/
def isOkOutcome (o : String × Bool × String) : Bool :=
  o.2.1 && (o.2.2 == "OK")

/-- Abstract exception-flow model of `process_one_accession`: the result
of each internal step is an oracle that either returns or raises.  This
mirrors only the `try`/`except` structure of the source, to reason about
which exceptions cross the pipeline boundary. -/
structure StepEnv where
  is_done : Except String Bool
  log_skip : Except String Unit
  prefetch : Except String Unit
  fasterq : Except String Unit
  cleanup_tmp : Except String Unit
  cleanup_sra : Except String Unit
  log_ok : Except String Unit
  log_fail : Except String Unit

/-- The body of the `try` block in `process_one_accession`: prefetch,
conversion, the two optional cleanups, and the success log write. -/
def tryBody (env : StepEnv) (delete_tmp_after delete_sra_after : Bool) :
    Except String Unit := do
  env.prefetch
  env.fasterq
  (if delete_tmp_after then env.cleanup_tmp else Except.ok ())
  (if delete_sra_after then env.cleanup_sra else Except.ok ())
  env.log_ok

/-- Models `process_one_accession` at the exception-flow level: the idempotency
check, the skip-path log write and the failure-path log write sit outside
the `try` block, so their exceptions propagate; exceptions from the `try`
body are converted into a failure outcome. -/
def process_one_exc (env : StepEnv) (delete_tmp_after delete_sra_after : Bool)
    (acc : String) : Except String (String × Bool × String) :=
  match env.is_done with
  | Except.error e => Except.error e
  | Except.ok true =>
    match env.log_skip with
    | Except.error e => Except.error e
    | Except.ok _ => Except.ok (acc, true, "SKIP (fastq already downloaded)")
  | Except.ok false =>
    match tryBody env delete_tmp_after delete_sra_after with
    | Except.ok _ => Except.ok (acc, true, "OK")
    | Except.error e =>
      match env.log_fail with
      | Except.error e2 => Except.error e2
      | Except.ok _ => Except.ok (acc, false, e)

/-! Concrete inputs used by the witness theorems. -/

/-- A subprocess oracle where every command succeeds. -/
def worldOk : List String → CmdResult := fun _ => ⟨0, "", ""⟩

/-- A subprocess oracle where every command exits 1 with stderr
"disk full". -/
def worldFail : List String → CmdResult := fun _ => ⟨1, "", "disk full"⟩

/-- The empty starting state. -/
def emptyState : RunState := ⟨⟨[], []⟩, [], []⟩

/-- A state whose filesystem already holds a non-empty single-end output
file for accession SRR1 under output root "out". -/
def doneState : RunState := ⟨⟨[("out/SRR1/SRR1.fastq", 5)], []⟩, [], []⟩

/-- A step environment where the failure path is reached and the
failure-path log write itself raises. -/
def envLogFailRaises : StepEnv :=
  ⟨Except.ok false, Except.ok (), Except.error "prefetch exploded",
   Except.ok (), Except.ok (), Except.ok (), Except.ok (),
   Except.error "log write failed"⟩

/-- A step environment where prefetch raises and every log write
succeeds. -/
def envPrefetchRaises : StepEnv :=
  ⟨Except.ok false, Except.ok (), Except.error "prefetch exploded",
   Except.ok (), Except.ok (), Except.ok (), Except.ok (), Except.ok ()⟩

/-! Helper lemmas. -/

theorem run_command_fs (world : List String → CmdResult) (cmd : List String)
    (dry : Bool) (st : RunState) : (run_command world cmd dry st).2.fs = st.fs := by
  unfold run_command
  split
  · rfl
  · dsimp only
    split <;> rfl

theorem run_command_log (world : List String → CmdResult) (cmd : List String)
    (dry : Bool) (st : RunState) : (run_command world cmd dry st).2.log = st.log := by
  unfold run_command
  split
  · rfl
  · dsimp only
    split <;> rfl

theorem prefetch_one_log (d : SraDownloader) (world : List String → CmdResult)
    (acc : String) (st : RunState) :
    (d.prefetch_one world acc st).2.log = st.log :=
  run_command_log _ _ _ _

theorem fasterq_dump_one_log (d : SraDownloader) (world : List String → CmdResult)
    (acc : String) (st : RunState) :
    (d.fasterq_dump_one world acc st).2.log = st.log := by
  unfold SraDownloader.fasterq_dump_one
  dsimp only
  split
  · rfl
  · exact run_command_log _ _ _ _

theorem safe_rmtree_log (path : String) (dry : Bool) (st : RunState) :
    (safe_rmtree path dry st).log = st.log := by
  unfold safe_rmtree
  split
  · rfl
  · split <;> rfl

theorem FS.existsPath_makedirs_self (fs : FS) (p : String) :
    (fs.makedirs p).existsPath p = true := by
  unfold FS.makedirs
  split
  · rename_i h
    simp only [FS.existsPath, Bool.or_eq_true]
    exact Or.inr h
  · simp [FS.existsPath, List.any_cons]

theorem FS.existsPath_makedirs_of (fs : FS) (p q : String)
    (h : fs.existsPath p = true) : (fs.makedirs q).existsPath p = true := by
  unfold FS.makedirs
  split
  · exact h
  · simp only [FS.existsPath, Bool.or_eq_true, List.any_cons] at h ⊢
    tauto

/-! Claim theorems. -/

/-- C4: `run_command` in real mode treats a non-zero exit status as a hard
failure raising `RuntimeError` with the captured stderr, and a zero exit
status as success regardless of output; in dry mode the command is never
executed and the call always succeeds. -/
theorem claim_C4_run_command_contract (world : List String → CmdResult)
    (cmd : List String) (st : RunState) :
    run_command world cmd true st = (Except.ok none, st)
    ∧ ((world cmd).returncode = 0 →
        run_command world cmd false st =
          (Except.ok (some (world cmd)), { st with executed := st.executed ++ [cmd] }))
    ∧ ((world cmd).returncode ≠ 0 →
        run_command world cmd false st =
          (Except.error (PyExn.runtimeError
            ("Command failed: " ++ printable cmd ++ "\n" ++ (world cmd).stderr)),
           { st with executed := st.executed ++ [cmd] })) := by
  refine ⟨rfl, ?_, ?_⟩
  · intro h
    unfold run_command
    simp [h]
  · intro h
    have hb : ((world cmd).returncode != 0) = true := by
      simpa [bne_iff_ne] using h
    unfold run_command
    simp [hb]

/-- Witness for C4: a command exiting 1 with stderr "disk full" yields the
`RuntimeError` carrying that stderr, and the command is recorded as
executed. -/
theorem claim_C4_witness :
    run_command worldFail ["prefetch", "SRR1"] false emptyState =
      (Except.error (PyExn.runtimeError
        ("Command failed: " ++ printable ["prefetch", "SRR1"] ++ "\n"
          ++ (worldFail ["prefetch", "SRR1"]).stderr)),
       { emptyState with executed := emptyState.executed ++ [["prefetch", "SRR1"]] }) :=
  (claim_C4_run_command_contract worldFail ["prefetch", "SRR1"] emptyState).2.2 (by decide)

/-- C10: the conversion step creates the per-accession output and temp
directories before the archive-existence check and before the conversion
command, so they exist in the resulting state on every path — real or dry
run, missing archive, command failure or success. -/
theorem claim_C10_fasterq_creates_dirs (d : SraDownloader)
    (world : List String → CmdResult) (acc : String) (st : RunState) :
    ((d.fasterq_dump_one world acc st).2.fs.existsPath (out_dir_acc d.out_dir acc) = true)
    ∧ ((d.fasterq_dump_one world acc st).2.fs.existsPath (tmp_dir_acc d.temp_dir acc) = true) := by
  have hfs : (d.fasterq_dump_one world acc st).2.fs
      = (st.fs.makedirs (out_dir_acc d.out_dir acc)).makedirs (tmp_dir_acc d.temp_dir acc) := by
    unfold SraDownloader.fasterq_dump_one
    dsimp only
    split
    · rfl
    · exact run_command_fs _ _ _ _
  rw [hfs]
  exact ⟨FS.existsPath_makedirs_of _ _ _ (FS.existsPath_makedirs_self _ _),
    FS.existsPath_makedirs_self _ _⟩

/-- C1 counterexample: the claim says no internal step's exception ever
propagates past the pipeline boundary.  But the failure-path log write
sits outside the `try` block: with prefetch failing and the log write
raising, `process_one_accession` propagates the log-write exception
instead of returning an outcome. -/
theorem claim_C1_counterexample :
    ¬ ∃ o, process_one_exc envLogFailRaises true true "SRR1" = Except.ok o := by
  rintro ⟨o, h⟩
  rw [show process_one_exc envLogFailRaises true true "SRR1"
      = Except.error "log write failed" from rfl] at h
  exact Except.noConfusion h

/-- C1 (amended): the pipeline propagates no exception — every identifier
yields a ProcessOutcome — provided the idempotency check and the log
writes outside the `try` block do not raise; exceptions from retrieval,
conversion, cleanup and the success-path log write are always caught and
converted into outcomes. -/
theorem claim_C1_amended_no_exception_escape (env : StepEnv)
    (delete_tmp_after delete_sra_after : Bool) (acc : String) (b : Bool)
    (hdone : env.is_done = Except.ok b)
    (hskip : env.log_skip = Except.ok ())
    (hfail : env.log_fail = Except.ok ()) :
    ∃ o, process_one_exc env delete_tmp_after delete_sra_after acc = Except.ok o := by
  unfold process_one_exc
  rw [hdone]
  cases b
  · cases htry : tryBody env delete_tmp_after delete_sra_after with
    | ok u => exact ⟨(acc, true, "OK"), rfl⟩
    | error e =>
      rw [hfail]
      exact ⟨(acc, false, e), rfl⟩
  · rw [hskip]
    exact ⟨(acc, true, "SKIP (fastq already downloaded)"), rfl⟩

/-- Witness for the amended C1: with a failing prefetch but healthy
idempotency check and log writes, the pipeline returns an outcome. -/
theorem claim_C1_witness :
    ∃ o, process_one_exc envPrefetchRaises true true "SRR1" = Except.ok o :=
  claim_C1_amended_no_exception_escape envPrefetchRaises true true "SRR1" false rfl rfl rfl

theorem run_command_no_fnf (world : List String → CmdResult) (cmd : List String)
    (dry : Bool) (st : RunState) (m : String) :
    (run_command world cmd dry st).1 ≠ Except.error (PyExn.fileNotFoundError m) := by
  unfold run_command
  split
  · exact fun h => Except.noConfusion h
  · dsimp only
    split
    · intro h
      simp at h
    · exact fun h => Except.noConfusion h

theorem getsize_pos_iff (fs : FS) (p : String) :
    0 < fs.getsize p ↔ ∃ n, fs.fileSize p = some n ∧ 0 < n := by
  unfold FS.getsize
  cases h : fs.fileSize p <;> simp [h]

theorem fileSize_some_exists (fs : FS) (p : String) (n : Nat)
    (h : fs.fileSize p = some n) : fs.existsPath p = true := by
  unfold FS.fileSize at h
  unfold FS.existsPath
  cases hf : fs.files.find? (fun f => f.1 == p) with
  | none => rw [hf] at h; simp at h
  | some f =>
    have hm := List.mem_of_find?_eq_some hf
    have hp := List.find?_some hf
    simp only [Bool.or_eq_true, List.any_eq_true]
    exact Or.inl ⟨f, hm, hp⟩

theorem is_done_iff (d : SraDownloader) (fs : FS) (acc : String) :
    d.is_done fs acc = true ↔
      ((∃ n, fs.fileSize (se_path d.out_dir acc) = some n ∧ 0 < n)
        ∨ (∃ n, fs.fileSize (pe1_path d.out_dir acc) = some n ∧ 0 < n)) := by
  unfold SraDownloader.is_done
  dsimp only
  constructor
  · intro h
    split at h
    · rename_i hc
      simp only [Bool.and_eq_true, decide_eq_true_eq] at hc
      exact Or.inl ((getsize_pos_iff _ _).mp hc.2)
    · split at h
      · rename_i hc
        simp only [Bool.and_eq_true, decide_eq_true_eq] at hc
        exact Or.inr ((getsize_pos_iff _ _).mp hc.2)
      · exact absurd h (by simp)
  · intro h
    rcases h with ⟨n, hn, hpos⟩ | ⟨n, hn, hpos⟩
    · have he : fs.existsPath (se_path d.out_dir acc) = true :=
        fileSize_some_exists _ _ _ hn
      have hg : 0 < fs.getsize (se_path d.out_dir acc) :=
        (getsize_pos_iff _ _).mpr ⟨n, hn, hpos⟩
      simp [he, hg]
    · have he : fs.existsPath (pe1_path d.out_dir acc) = true :=
        fileSize_some_exists _ _ _ hn
      have hg : 0 < fs.getsize (pe1_path d.out_dir acc) :=
        (getsize_pos_iff _ _).mpr ⟨n, hn, hpos⟩
      split
      · rfl
      · simp [he, hg]

/-- C5: the conversion step raises `FileNotFoundError` (the
MissingArchiveObject failure) if and only if the run is real and the
archive object `<sra_dir>/<acc>/<acc>.sra` does not exist at check time;
in that case the conversion command is not invoked (the executed-command
list is unchanged), and in dry mode the check is skipped and the call
succeeds. -/
theorem claim_C5_missing_archive_iff (d : SraDownloader)
    (world : List String → CmdResult) (acc : String) (st : RunState) :
    ((∃ m, (d.fasterq_dump_one world acc st).1 = Except.error (PyExn.fileNotFoundError m))
      ↔ (d.dry_run = false
          ∧ ((st.fs.makedirs (out_dir_acc d.out_dir acc)).makedirs
              (tmp_dir_acc d.temp_dir acc)).existsPath (sra_path d.sra_dir acc) = false))
    ∧ (d.dry_run = false →
        ((st.fs.makedirs (out_dir_acc d.out_dir acc)).makedirs
            (tmp_dir_acc d.temp_dir acc)).existsPath (sra_path d.sra_dir acc) = false →
        d.fasterq_dump_one world acc st =
          (Except.error (PyExn.fileNotFoundError
            ("Missing SRA file: " ++ sra_path d.sra_dir acc)),
           { st with fs := (st.fs.makedirs (out_dir_acc d.out_dir acc)).makedirs (tmp_dir_acc d.temp_dir acc) }))
    ∧ (d.dry_run = true → (d.fasterq_dump_one world acc st).1 = Except.ok none) := by
  unfold SraDownloader.fasterq_dump_one
  dsimp only
  cases hd : d.dry_run with
  | true =>
    rw [if_neg (by simp)]
    refine ⟨?_, ?_, ?_⟩
    · constructor
      · rintro ⟨m, hm⟩
        exact absurd hm (run_command_no_fnf _ _ _ _ _)
      · rintro ⟨h, -⟩
        exact absurd h (by simp)
    · intro h
      exact absurd h (by simp)
    · intro _
      simp [run_command]
  | false =>
    cases hex : ((st.fs.makedirs (out_dir_acc d.out_dir acc)).makedirs
        (tmp_dir_acc d.temp_dir acc)).existsPath (sra_path d.sra_dir acc) with
    | false =>
      rw [if_pos (by simp [hex])]
      refine ⟨?_, ?_, ?_⟩
      · constructor
        · intro _
          exact ⟨rfl, rfl⟩
        · intro _
          exact ⟨"Missing SRA file: " ++ sra_path d.sra_dir acc, rfl⟩
      · intro _ _
        rfl
      · intro h
        exact absurd h (by simp)
    | true =>
      rw [if_neg (by simp [hex])]
      refine ⟨?_, ?_, ?_⟩
      · constructor
        · rintro ⟨m, hm⟩
          exact absurd hm (run_command_no_fnf _ _ _ _ _)
        · rintro ⟨-, h⟩
          exact absurd h (by simp)
      · intro _ h
        exact absurd h (by simp)
      · intro h
        exact absurd h (by simp)

/-- Witness for C5: on an empty filesystem in real mode, conversion fails
with the missing-archive error and executes no command. -/
theorem claim_C5_witness :
    (SraDownloader.mk "out" "tmp" "sra" 4 false).fasterq_dump_one worldOk "SRR1" emptyState =
      (Except.error (PyExn.fileNotFoundError
        ("Missing SRA file: " ++ sra_path "sra" "SRR1")),
       { emptyState with fs := (emptyState.fs.makedirs (out_dir_acc "out" "SRR1")).makedirs (tmp_dir_acc "tmp" "SRR1") }) :=
  (claim_C5_missing_archive_iff (SraDownloader.mk "out" "tmp" "sra" 4 false)
    worldOk "SRR1" emptyState).2.1 rfl (by decide)

/-- C2: the idempotency verdict is true exactly when a non-empty
single-end `<acc>.fastq` or non-empty paired-end `<acc>_1.fastq` file
exists (empty files and bare directories do not count, and an absent
output directory simply yields not-done); when it is true the pipeline
returns the SKIPPED outcome and performs nothing but the SKIP log write —
in particular it invokes neither retrieval nor conversion. -/
theorem claim_C2_idempotent_skip (world : List String → CmdResult) (acc : String)
    (out_dir tmp_dir sra_dir : String) (threads : Nat)
    (dry_run delete_tmp_after delete_sra_after : Bool) (st : RunState) :
    ((SraDownloader.mk out_dir tmp_dir sra_dir threads dry_run).is_done st.fs acc = true
      ↔ ((∃ n, st.fs.fileSize (se_path out_dir acc) = some n ∧ 0 < n)
          ∨ (∃ n, st.fs.fileSize (pe1_path out_dir acc) = some n ∧ 0 < n)))
    ∧ ((SraDownloader.mk out_dir tmp_dir sra_dir threads dry_run).is_done st.fs acc = true →
        process_one_accession world acc out_dir tmp_dir sra_dir threads
            dry_run delete_tmp_after delete_sra_after st =
          ((acc, true, "SKIP (fastq already downloaded)"),
            append_log acc "SKIP" "fastq already downloaded" st)) := by
  refine ⟨is_done_iff _ _ _, ?_⟩
  intro h
  unfold process_one_accession
  dsimp only
  rw [h]
  rfl

/-- Witness for C2: with a non-empty `out/SRR1/SRR1.fastq` on disk the
pipeline emits the SKIPPED outcome and only appends the SKIP log
record. -/
theorem claim_C2_witness :
    process_one_accession worldOk "SRR1" "out" "tmp" "sra" 4 false true true doneState =
      (("SRR1", true, "SKIP (fastq already downloaded)"),
        append_log "SRR1" "SKIP" "fastq already downloaded" doneState) :=
  (claim_C2_idempotent_skip worldOk "SRR1" "out" "tmp" "sra" 4 false true true
    doneState).2 (by decide)

theorem flattenNewlines_no_newline (s : String) :
    (flattenNewlines s).data.all (fun c => c != '\n') = true := by
  show (s.data.map fun c => if c = '\n' then ' ' else c).all (fun c => c != '\n') = true
  rw [List.all_eq_true]
  intro c hc
  rw [List.mem_map] at hc
  obtain ⟨b, -, rfl⟩ := hc
  by_cases hb : b = '\n' <;> simp [hb]

/-- Every run of the per-item pipeline appends exactly one log record:
for the processed accession, with status SKIP, OK or FAIL, and with a
message containing no newline (the failure path flattens the exception
text before logging). -/
theorem process_one_log_shape (world : List String → CmdResult) (acc : String)
    (out_dir tmp_dir sra_dir : String) (threads : Nat)
    (dry_run delete_tmp_after delete_sra_after : Bool) (st : RunState) :
    ∃ r : LogRecord,
      (process_one_accession world acc out_dir tmp_dir sra_dir threads
        dry_run delete_tmp_after delete_sra_after st).2.log = st.log ++ [r]
      ∧ r.acc = acc
      ∧ (r.status = "SKIP" ∨ r.status = "OK" ∨ r.status = "FAIL")
      ∧ r.msg.data.all (fun c => c != '\n') = true := by
  unfold process_one_accession
  dsimp only
  split
  · exact ⟨⟨acc, "SKIP", "fastq already downloaded"⟩, rfl, rfl, Or.inl rfl, rfl⟩
  · rcases hp : SraDownloader.prefetch_one ⟨out_dir, tmp_dir, sra_dir, threads, dry_run⟩
        world acc st with ⟨res1, st1⟩
    have h1 : st1.log = st.log := by
      have h := prefetch_one_log ⟨out_dir, tmp_dir, sra_dir, threads, dry_run⟩ world acc st
      rw [hp] at h
      exact h
    cases res1 with
    | error e =>
      refine ⟨⟨acc, "FAIL", flattenNewlines e.str⟩, ?_, rfl, Or.inr (Or.inr rfl),
        flattenNewlines_no_newline _⟩
      simp [append_log, h1]
    | ok u =>
      dsimp only
      rcases hq : SraDownloader.fasterq_dump_one ⟨out_dir, tmp_dir, sra_dir, threads, dry_run⟩
          world acc st1 with ⟨res2, st2⟩
      have h2 : st2.log = st1.log := by
        have h := fasterq_dump_one_log ⟨out_dir, tmp_dir, sra_dir, threads, dry_run⟩ world acc st1
        rw [hq] at h
        exact h
      cases res2 with
      | error e =>
        refine ⟨⟨acc, "FAIL", flattenNewlines e.str⟩, ?_, rfl, Or.inr (Or.inr rfl),
          flattenNewlines_no_newline _⟩
        simp [append_log, h2, h1]
      | ok v =>
        refine ⟨⟨acc, "OK", "prefetch + fasterq-dump completed"⟩, ?_, rfl,
          Or.inr (Or.inl rfl), rfl⟩
        have h3 : (if delete_tmp_after then
            safe_rmtree (tmp_dir_acc tmp_dir acc) dry_run st2 else st2).log = st2.log := by
          split
          · exact safe_rmtree_log _ _ _
          · rfl
        have h4 : (if delete_sra_after then
            safe_rmtree (sra_dir_acc sra_dir acc) dry_run
              (if delete_tmp_after then
                safe_rmtree (tmp_dir_acc tmp_dir acc) dry_run st2 else st2)
            else (if delete_tmp_after then
                safe_rmtree (tmp_dir_acc tmp_dir acc) dry_run st2 else st2)).log
            = st2.log := by
          split
          · rw [safe_rmtree_log]
            exact h3
          · exact h3
        simp [append_log, h4, h2, h1]

/-- C3: the scheduler collects exactly one outcome per identifier handed
to it, and the log grows by exactly one record per identifier — on every
path (skip, success, failure). -/
theorem claim_C3_exactly_once (world : List String → CmdResult)
    (out_dir tmp_dir sra_dir : String) (threads : Nat)
    (dry_run delete_tmp_after delete_sra_after : Bool)
    (accs : List String) (st : RunState) :
    (run_all world out_dir tmp_dir sra_dir threads dry_run delete_tmp_after
        delete_sra_after accs st).1.length = accs.length
    ∧ (run_all world out_dir tmp_dir sra_dir threads dry_run delete_tmp_after
        delete_sra_after accs st).2.log.length = st.log.length + accs.length := by
  induction accs generalizing st with
  | nil => exact ⟨rfl, by simp [run_all]⟩
  | cons a rest ih =>
    obtain ⟨r, hr, -, -, -⟩ := process_one_log_shape world a out_dir tmp_dir sra_dir
      threads dry_run delete_tmp_after delete_sra_after st
    have h1 := ih (process_one_accession world a out_dir tmp_dir sra_dir threads
      dry_run delete_tmp_after delete_sra_after st).2
    constructor
    · simp only [run_all, List.length_cons]
      rw [h1.1]
    · simp only [run_all]
      rw [h1.2, hr]
      simp only [List.length_append, List.length_cons, List.length_nil]
      omega

/-- Every outcome of the per-item pipeline is either the SKIPPED outcome,
the SUCCEEDED outcome, or a failure outcome with flag `false`. -/
theorem process_one_outcome_shape (world : List String → CmdResult) (acc : String)
    (out_dir tmp_dir sra_dir : String) (threads : Nat)
    (dry_run delete_tmp_after delete_sra_after : Bool) (st : RunState) :
    (process_one_accession world acc out_dir tmp_dir sra_dir threads
        dry_run delete_tmp_after delete_sra_after st).1
      = (acc, true, "SKIP (fastq already downloaded)")
    ∨ (process_one_accession world acc out_dir tmp_dir sra_dir threads
        dry_run delete_tmp_after delete_sra_after st).1 = (acc, true, "OK")
    ∨ ∃ m, (process_one_accession world acc out_dir tmp_dir sra_dir threads
        dry_run delete_tmp_after delete_sra_after st).1 = (acc, false, m) := by
  unfold process_one_accession
  dsimp only
  split
  · exact Or.inl rfl
  · rcases hp : SraDownloader.prefetch_one ⟨out_dir, tmp_dir, sra_dir, threads, dry_run⟩
        world acc st with ⟨res1, st1⟩
    cases res1 with
    | error e => exact Or.inr (Or.inr ⟨e.str, rfl⟩)
    | ok u =>
      dsimp only
      rcases hq : SraDownloader.fasterq_dump_one ⟨out_dir, tmp_dir, sra_dir, threads, dry_run⟩
          world acc st1 with ⟨res2, st2⟩
      cases res2 with
      | error e => exact Or.inr (Or.inr ⟨e.str, rfl⟩)
      | ok v => exact Or.inr (Or.inl rfl)

/-- Every outcome collected by the scheduler whose success flag is true is
either the SKIPPED outcome or the SUCCEEDED outcome. -/
theorem run_all_outcome_shape (world : List String → CmdResult)
    (out_dir tmp_dir sra_dir : String) (threads : Nat)
    (dry_run delete_tmp_after delete_sra_after : Bool) (accs : List String) (st : RunState) :
    ∀ o ∈ (run_all world out_dir tmp_dir sra_dir threads dry_run delete_tmp_after
        delete_sra_after accs st).1,
      o.2.1 = true → (o.2.2 = "SKIP (fastq already downloaded)" ∨ o.2.2 = "OK") := by
  induction accs generalizing st with
  | nil =>
    intro o ho
    simp [run_all] at ho
  | cons a rest ih =>
    intro o ho hflag
    simp only [run_all, List.mem_cons] at ho
    rcases ho with rfl | ho
    · rcases process_one_outcome_shape world a out_dir tmp_dir sra_dir threads
          dry_run delete_tmp_after delete_sra_after st with h | h | ⟨m, h⟩
      · rw [h]
        exact Or.inl rfl
      · rw [h]
        exact Or.inr rfl
      · rw [h] at hflag
        simp at hflag
    · exact ih _ o ho hflag

theorem count_success_split (outs : List (String × Bool × String))
    (hshape : ∀ o ∈ outs, o.2.1 = true →
      (o.2.2 = "SKIP (fastq already downloaded)" ∨ o.2.2 = "OK")) :
    okCount outs = outs.countP isSkipOutcome + outs.countP isOkOutcome := by
  have hne : (("SKIP (fastq already downloaded)" : String) == "OK") = false := by decide
  have hne2 : (("OK" : String) == "SKIP (fastq already downloaded)") = false := by decide
  induction outs with
  | nil => rfl
  | cons o rest ih =>
    have hrest := ih (fun x hx => hshape x (List.mem_cons_of_mem _ hx))
    have ho := hshape o (List.mem_cons_self _ _)
    simp only [okCount, List.countP_cons] at hrest ⊢
    cases hflag : o.2.1 with
    | false =>
      simp only [isSkipOutcome, isOkOutcome, hflag, Bool.false_and, if_false]
      simpa [hflag] using hrest
    | true =>
      rcases ho hflag with hmsg | hmsg
      · simp only [isSkipOutcome, isOkOutcome, hflag, hmsg, Bool.true_and,
          beq_self_eq_true, hne, if_true, if_false]
        rw [hrest]
        simp
        omega
      · simp only [isSkipOutcome, isOkOutcome, hflag, hmsg, Bool.true_and,
          beq_self_eq_true, hne2, if_true, if_false]
        rw [hrest]
        simp
        omega

/-- C9: a skipped identifier yields an outcome whose success flag is true,
and the scheduler's Successful tally equals the number of SKIPPED outcomes
plus the number of SUCCEEDED outcomes. -/
theorem claim_C9_skip_counts_as_success (world : List String → CmdResult)
    (out_dir tmp_dir sra_dir : String) (threads : Nat)
    (dry_run delete_tmp_after delete_sra_after : Bool) (st : RunState)
    (acc : String) (accs : List String) (stRun : RunState) :
    ((SraDownloader.mk out_dir tmp_dir sra_dir threads dry_run).is_done st.fs acc = true →
      (process_one_accession world acc out_dir tmp_dir sra_dir threads
          dry_run delete_tmp_after delete_sra_after st).1
        = (acc, true, "SKIP (fastq already downloaded)"))
    ∧ okCount (run_all world out_dir tmp_dir sra_dir threads dry_run delete_tmp_after
          delete_sra_after accs stRun).1
        = (run_all world out_dir tmp_dir sra_dir threads dry_run delete_tmp_after
            delete_sra_after accs stRun).1.countP isSkipOutcome
          + (run_all world out_dir tmp_dir sra_dir threads dry_run delete_tmp_after
            delete_sra_after accs stRun).1.countP isOkOutcome := by
  constructor
  · intro h
    unfold process_one_accession
    dsimp only
    rw [h]
    rfl
  · exact count_success_split _ (run_all_outcome_shape world out_dir tmp_dir sra_dir
      threads dry_run delete_tmp_after delete_sra_after accs stRun)

/-- Witness for C9: with the output fastq already present, the outcome is
SKIPPED with its success flag set. -/
theorem claim_C9_witness :
    (process_one_accession worldOk "SRR1" "out" "tmp" "sra" 4 false true true doneState).1
      = ("SRR1", true, "SKIP (fastq already downloaded)") :=
  (claim_C9_skip_counts_as_success worldOk "out" "tmp" "sra" 4 false true true
    doneState "SRR1" [] emptyState).1 (by decide)

/-- C8 counterexample: `append_log` does not flatten newlines — the line
it writes carries the message verbatim, so for a message with an embedded
newline the written record is not the claimed flattened single line. -/
theorem claim_C8_counterexample :
    ¬ ∀ ts acc status msg : String,
        append_log_line ts acc status msg
          = ts ++ "\t" ++ acc ++ "\t" ++ status ++ "\t" ++ flattenNewlines msg ++ "\n" := by
  intro h
  exact absurd (h "t" "SRR1" "FAIL" "a\nb") (by decide)

/-- C8 (amended): every `append_log` call appends exactly one
tab-separated record with the message argument written verbatim, and the
newline flattening happens at the failure call site in
`process_one_accession` — so every record the pipeline writes has status
SKIP, OK or FAIL and a message with no embedded newline, making the
written line `ts \t acc \t status \t msg \n` a single line whenever the
other fields are newline-free. -/
theorem claim_C8_amended_one_record_per_call (world : List String → CmdResult)
    (acc : String) (out_dir tmp_dir sra_dir : String) (threads : Nat)
    (dry_run delete_tmp_after delete_sra_after : Bool) (st : RunState) (ts : String) :
    ∃ r : LogRecord,
      (process_one_accession world acc out_dir tmp_dir sra_dir threads
        dry_run delete_tmp_after delete_sra_after st).2.log = st.log ++ [r]
      ∧ r.acc = acc
      ∧ (r.status = "SKIP" ∨ r.status = "OK" ∨ r.status = "FAIL")
      ∧ r.msg.data.all (fun c => c != '\n') = true
      ∧ append_log_line ts r.acc r.status r.msg
          = ts ++ "\t" ++ r.acc ++ "\t" ++ r.status ++ "\t" ++ r.msg ++ "\n" := by
  obtain ⟨r, h1, h2, h3, h4⟩ := process_one_log_shape world acc out_dir tmp_dir sra_dir
    threads dry_run delete_tmp_after delete_sra_after st
  exact ⟨r, h1, h2, h3, h4, rfl⟩

theorem isDigit_toNat (c : Char) :
    c.isDigit = true ↔ (48 ≤ c.val.toNat ∧ c.val.toNat ≤ 57) := by
  simp [Char.isDigit]
  constructor
  · rintro ⟨h1, h2⟩
    exact ⟨h1, h2⟩
  · rintro ⟨h1, h2⟩
    exact ⟨h1, h2⟩

set_option maxRecDepth 4000 in
theorem isPyDigitNat_ascii :
    ∀ v, v < 128 → isPyDigitNat v = decide (48 ≤ v ∧ v ≤ 57) := by
  decide

/-- On the ASCII range, the Python digit class coincides with the digits
`0`-`9`. -/
theorem isPyDigit_ascii (c : Char) (h : c.val.toNat < 128) :
    isPyDigit c = c.isDigit := by
  rw [isPyDigit, isPyDigitNat_ascii c.val.toNat h]
  cases hd : c.isDigit with
  | true =>
    simpa [decide_eq_true_eq] using (isDigit_toNat c).mp hd
  | false =>
    simp only [decide_eq_false_iff_not]
    intro hc
    rw [(isDigit_toNat c).mpr hc] at hd
    exact Bool.noConfusion hd

theorem isDigit_isPyDigit (c : Char) (h : c.isDigit = true) : isPyDigit c = true := by
  have hb := (isDigit_toNat c).mp h
  rw [isPyDigit, isPyDigitNat_ascii c.val.toNat (by omega)]
  simpa [decide_eq_true_eq] using hb

/-- The unrolled regex matcher accepts exactly the strings of the
Unicode-digit accession grammar. -/
theorem matches_acc_regex_iff (l : List Char) :
    matches_acc_regex l = true ↔
      ∃ ds : List Char,
        (l = 'S' :: 'R' :: 'R' :: ds ∨ l = 'E' :: 'R' :: 'R' :: ds ∨
          l = 'D' :: 'R' :: 'R' :: ds)
        ∧ ds ≠ [] ∧ ∀ c ∈ ds, isPyDigit c = true := by
  constructor
  · intro h
    cases l with
    | nil => simp [matches_acc_regex] at h
    | cons a t =>
      cases t with
      | nil => simp [matches_acc_regex] at h
      | cons b t2 =>
        cases t2 with
        | nil => simp [matches_acc_regex] at h
        | cons c rest =>
          simp only [matches_acc_regex, Bool.and_eq_true, Bool.or_eq_true, beq_iff_eq,
            Bool.not_eq_true', List.isEmpty_eq_false, List.all_eq_true] at h
          obtain ⟨⟨⟨⟨ha, hb⟩, hc⟩, hne⟩, hd⟩ := h
          subst hb
          subst hc
          rcases ha with (rfl | rfl) | rfl
          · exact ⟨rest, Or.inl rfl, hne, hd⟩
          · exact ⟨rest, Or.inr (Or.inl rfl), hne, hd⟩
          · exact ⟨rest, Or.inr (Or.inr rfl), hne, hd⟩
  · rintro ⟨ds, (rfl | rfl | rfl), hne, hd⟩ <;>
      (simp [matches_acc_regex, List.all_eq_true, hne]; exact hd)

/-- C6 counterexample: the source's digit class matches any Unicode
decimal digit, so the validator accepts the token SRR followed by the
Arabic-Indic digit three (a token unchanged by stripping and
upper-casing), which does not match the claimed grammar with digits
`0`-`9`; the claimed iff fails at this token. -/
theorem claim_C6_counterexample :
    validate_accessions (normalize_token "SRR٣") = true
    ∧ ¬ accessionGrammar (normalize_token "SRR٣") := by
  have hnorm : normalize_token "SRR٣" = "SRR٣" := rfl
  refine ⟨rfl, ?_⟩
  rw [hnorm]
  rintro ⟨ds, (h | h | h), hne, hd⟩
  · have hdata : ("SRR٣" : String).data = ['S', 'R', 'R', '٣'] := rfl
    rw [hdata] at h
    injection h with h1 h
    injection h with h2 h
    injection h with h3 h
    have hds : ds = ['٣'] := h.symm
    subst hds
    have hdig := hd '٣' (by simp)
    exact absurd hdig (by decide)
  · have hdata : ("SRR٣" : String).data = ['S', 'R', 'R', '٣'] := rfl
    rw [hdata] at h
    injection h with h1 h
    exact absurd h1 (by decide)
  · have hdata : ("SRR٣" : String).data = ['S', 'R', 'R', '٣'] := rfl
    rw [hdata] at h
    injection h with h1 h
    exact absurd h1 (by decide)

/-- C6 (amended): the validator (applied, as in `main`, to the stripped
and upper-cased token) accepts a token if and only if the normalized
token is one of the prefixes SRR, ERR, DRR followed by one or more
Unicode decimal digits (the Python digit class) and nothing else; when
the normalized token consists of ASCII characters — every well-formed
accession does — this coincides with the claimed grammar with digits
`0`-`9`.  The decision is a pure boolean function. -/
theorem claim_C6_amended_unicode_digits (tok : String) :
    (validate_accessions (normalize_token tok) = true
      ↔ accessionGrammarUnicode (normalize_token tok))
    ∧ ((∀ c ∈ (normalize_token tok).data, c.val.toNat < 128) →
        (validate_accessions (normalize_token tok) = true
          ↔ accessionGrammar (normalize_token tok))) := by
  constructor
  · exact matches_acc_regex_iff (normalize_token tok).data
  · intro hascii
    have hiff : validate_accessions (normalize_token tok) = true
        ↔ accessionGrammarUnicode (normalize_token tok) :=
      matches_acc_regex_iff (normalize_token tok).data
    rw [hiff]
    constructor
    · rintro ⟨ds, hpre, hne, hd⟩
      refine ⟨ds, hpre, hne, ?_⟩
      intro c hc
      have hcs : c ∈ (normalize_token tok).data := by
        rcases hpre with h | h | h <;> (rw [h]; simp [hc])
      rw [← isPyDigit_ascii c (hascii c hcs)]
      exact hd c hc
    · rintro ⟨ds, hpre, hne, hd⟩
      exact ⟨ds, hpre, hne, fun c hc => isDigit_isPyDigit c (hd c hc)⟩

/-- Witness for the amended C6: the ASCII token SRR123 normalizes to an
ASCII string, so on it the validator agrees with the claimed grammar. -/
theorem claim_C6_witness :
    validate_accessions (normalize_token "SRR123") = true
      ↔ accessionGrammar (normalize_token "SRR123") :=
  (claim_C6_amended_unicode_digits "SRR123").2 (by decide)

theorem dedupGo_sublist (l : List String) : ∀ seen, List.Sublist (dedupGo seen l) l := by
  induction l with
  | nil =>
    intro seen
    simp [dedupGo]
  | cons a t ih =>
    intro seen
    by_cases h : a ∈ seen
    · simp only [dedupGo, if_pos h]
      exact List.Sublist.cons a (ih seen)
    · simp only [dedupGo, if_neg h]
      exact List.Sublist.cons₂ a (ih (a :: seen))

theorem dedupGo_nodup (l : List String) :
    ∀ seen, (dedupGo seen l).Nodup ∧ ∀ x ∈ dedupGo seen l, x ∉ seen := by
  induction l with
  | nil =>
    intro seen
    simp [dedupGo]
  | cons a t ih =>
    intro seen
    by_cases h : a ∈ seen
    · simpa only [dedupGo, if_pos h] using ih seen
    · simp only [dedupGo, if_neg h]
      obtain ⟨hnd, hmem⟩ := ih (a :: seen)
      refine ⟨List.nodup_cons.mpr ⟨?_, hnd⟩, ?_⟩
      · intro hx
        exact (hmem a hx) (List.mem_cons_self _ _)
      · intro x hx
        rcases List.mem_cons.mp hx with rfl | hx2
        · exact h
        · intro hxseen
          exact (hmem x hx2) (List.mem_cons_of_mem _ hxseen)

theorem dedupGo_eq_keepFirst (l : List String) :
    ∀ seen, dedupGo seen l = keepFirst (l.filter (fun b => decide (b ∉ seen))) := by
  induction l with
  | nil =>
    intro seen
    simp [dedupGo, keepFirst]
  | cons a t ih =>
    intro seen
    by_cases h : a ∈ seen
    · rw [dedupGo, if_pos h, ih seen]
      simp [List.filter_cons, h]
    · rw [dedupGo, if_neg h, ih (a :: seen)]
      rw [show (a :: t).filter (fun b => decide (b ∉ seen))
          = a :: t.filter (fun b => decide (b ∉ seen)) by simp [List.filter_cons, h]]
      rw [keepFirst]
      congr 1
      rw [List.filter_filter]
      refine congrArg keepFirst (List.filter_congr ?_)
      intro b _
      by_cases hba : b = a
      · simp [hba]
      · by_cases hbs : b ∈ seen
        · simp [hba, hbs]
        · simp [hba, hbs]

/-- C7: deduplication returns a duplicate-free subsequence of its input —
precisely the subsequence keeping the first occurrence of every element —
and its length never exceeds the input length. -/
theorem claim_C7_dedup (items : List String) :
    (dedup_preserve_order items).Nodup
    ∧ List.Sublist (dedup_preserve_order items) items
    ∧ dedup_preserve_order items = keepFirst items
    ∧ (dedup_preserve_order items).length ≤ items.length := by
  have hs := dedupGo_sublist items []
  have hn := (dedupGo_nodup items []).1
  have he := dedupGo_eq_keepFirst items []
  refine ⟨hn, hs, ?_, hs.length_le⟩
  rw [dedup_preserve_order, he]
  congr 1
  simp

end SraFetch
